import Mathlib

/-!
Shallow embedding of the roku REST client (src/client.go) and proofs about it.

The embedding keeps the names of the Go source where Lean allows it.  Go
machine integers that appear (HTTP status codes, byte limits, offsets) are
non-negative and far from overflow, so they are modelled as Nat.  Go nil
pointers and nil interface values are modelled with Option; fallible calls
return pairs (value, error) mirroring the Go multi-value returns.
-/

namespace Roku

/-- Go error values as the library observes them through errors.Is.
A package-level sentinel declared once in the var block keeps a stable
identity; an error built at a call site by errors.New or fmt.Errorf without
the w verb is a fresh value on every call (its identity is the allocation,
modelled by an id); fmt.Errorf with the w verb wraps an inner error that
errors.Is can reach through Unwrap. -/
inductive GoErr where
  | sentinel (name : String)
  | fresh (msg : String) (id : Nat)
  | wrapped (ctx : String) (inner : GoErr)
  deriving DecidableEq

/-- ErrTimeOut from the var block of client.go. -/
def ErrTimeOut : GoErr := .sentinel "time out"

/-- ErrMarshallValue from the var block of client.go. -/
def ErrMarshallValue : GoErr := .sentinel "couldn\x27t marshalling the value"

/-- ErrBadRequest from the var block of client.go. -/
def ErrBadRequest : GoErr := .sentinel "bad request"

/-- ErrNonPointerOrWrongCasting from the var block of client.go. -/
def ErrNonPointerOrWrongCasting : GoErr :=
  .sentinel "RxGo item value is not a pointer or you are using the wrong casting type"

/-- ErrEmptyItem from the var block of client.go. -/
def ErrEmptyItem : GoErr := .sentinel "RxGo item has no value and no error"

/-- ErrNilValue from the var block of client.go. -/
def ErrNilValue : GoErr := .sentinel "nil value provided"

/-- ErrTimerNotSet from the var block of client.go. -/
def ErrTimerNotSet : GoErr := .sentinel "timer must be set"

/-- context.Canceled, the sentinel of the Go standard library context package. -/
def ctxCanceled : GoErr := .sentinel "context canceled"

/-- errors.Is of the Go standard library: match by identity against the
target, unwrapping the chain produced by fmt.Errorf with the w verb. -/
def errIs : GoErr → GoErr → Bool
  | e@(.wrapped _ inner), target => decide (e = target) || errIs inner target
  | e, target => decide (e = target)

/-- A response body stream (io.ReadCloser): single consumer.  Reading drains
what remains; a stream with readErr set fails when read; Close returns
closeErr and every Close is counted. -/
structure BodyStream where
  remaining : String
  readErr : Option GoErr
  closeErr : Option GoErr
  closeCount : Nat
  deriving DecidableEq

/-- A fresh healthy body stream holding the given content, not yet closed. -/
def mkStream (content : String) : BodyStream := ⟨content, none, none, 0⟩

/-- io.ReadAll on a body stream: returns whatever remains and leaves the
stream drained; a failing stream reports its read error. -/
def readAll (b : BodyStream) : Except GoErr String × BodyStream :=
  match b.readErr with
  | some e => (.error e, b)
  | none => (.ok b.remaining, { b with remaining := "" })

/-- The fields of http.Response that client.go reads. -/
structure HttpRes where
  statusCode : Nat
  status : String
  body : BodyStream
  deriving DecidableEq

/-- DefaultInvalidStatusCodeValidator from client.go:
(res.StatusCode/100)/4 == 1 || (res.StatusCode/100)/5 == 1. -/
def DefaultInvalidStatusCodeValidator (res : HttpRes) : Bool :=
  res.statusCode / 100 / 4 == 1 || res.statusCode / 100 / 5 == 1

/-- The error returned by do: either a plain Go error value or an
ErrInvalidHttpStatus struct wrapping the raw response. -/
inductive DoErr where
  | plain (e : GoErr)
  | invalidStatus (res : HttpRes)
  deriving DecidableEq

/-- The outcome of client.Do.  The Go http.Client contract is that a nil
error comes with a non-nil response, so the success constructor carries the
response. -/
inductive DoOutcome where
  | success (res : HttpRes)
  | failure (e : GoErr)
  deriving DecidableEq

/-- The external inputs that determine one run of do: whether
http.NewRequestWithContext fails, and what client.Do returns. -/
structure DoInput where
  newReqErr : Option GoErr
  outcome : DoOutcome
  deriving DecidableEq

/-- do from client.go.  The deadline timer is the handle returned by
time.AfterFunc, which is never nil, modelled as Unit.  The triple of Options
mirrors the Go return (response, timer, error) where none is a Go nil. -/
def doCall (inp : DoInput) (validator : HttpRes → Bool) (url : String) :
    Option HttpRes × Option Unit × Option DoErr :=
  match inp.newReqErr with
  | some e => (none, none, some (.plain e))
  | none =>
    match inp.outcome with
    | .success res =>
      if validator res then (none, some (), some (.invalidStatus res))
      else (some res, some (), none)
    | .failure err =>
      if errIs err ctxCanceled then
        (none, none, some (.plain (.wrapped ("service at " ++ url) ErrTimeOut)))
      else (none, none, some (.plain err))

/-- The result of json.Marshal on the value a non-nil request pointer points
to. -/
inductive MarshalOutcome where
  | ok (bytes : String)
  | fails (msg : String)
  deriving DecidableEq

/-- toBytesReader from client.go: a nil pointer yields ErrNilValue, otherwise
json.Marshal runs and a marshal failure is wrapped in ErrMarshallValue. -/
def toBytesReader (value : Option MarshalOutcome) : Option String × Option GoErr :=
  match value with
  | none => (none, some ErrNilValue)
  | some (.ok bs) => (some bs, none)
  | some (.fails m) => (none, some (.wrapped m ErrMarshallValue))

/-- Where the front half of Fetch goes after serialising the request:
either an early return with an error, or on to httpCall with a body reader
(none models the nil reader, an absent body). -/
inductive FetchStep where
  | earlyErr (e : GoErr)
  | call (reqBody : Option String)
  deriving DecidableEq

/-- The serialisation phase of Fetch (client.go): any toBytesReader error
other than ErrNilValue returns early; ErrNilValue is filtered out by the
errors.Is guard and the call proceeds with the nil reader. -/
def fetchPrepare (req : Option MarshalOutcome) : FetchStep :=
  let r := toBytesReader req
  match r.2 with
  | none => .call r.1
  | some e => if errIs e ErrNilValue then .call r.1 else .earlyErr e

/-- The closed method enumeration of client.go. -/
inductive HttpMethod where
  | get | post | put | patch | delete
  deriving DecidableEq

/-- The outbound request as handed to http.NewRequestWithContext inside do. -/
structure OutboundRequest where
  method : HttpMethod
  reqBody : Option String
  deriving DecidableEq

/-- The request Fetch sends, when it sends one: Fetch passes the serialised
reader (nil or not) and the method straight through httpCall into
http.NewRequestWithContext; the method never influences the body. -/
def fetchOutbound (m : HttpMethod) (req : Option MarshalOutcome) :
    Option OutboundRequest :=
  match fetchPrepare req with
  | .earlyErr _ => none
  | .call b => some ⟨m, b⟩

/-- An item that the producer inside FetchRx sends on the channel: rxgo.Of
carries the Fetch result pointer (the Go nil after a failure), rxgo.Error
carries the error. -/
inductive RxEmit (α ε : Type) where
  | ofVal (v : Option α)
  | errItem (e : ε)
  deriving DecidableEq

/-- The producer body of FetchRx (client.go): it sends rxgo.Error(err) when
Fetch failed and then falls through and sends rxgo.Of(res) unconditionally. -/
def fetchRxProducer {α ε : Type} (res : Option α) (err : Option ε) :
    List (RxEmit α ε) :=
  match err with
  | none => [.ofVal res]
  | some e => [.errItem e, .ofVal res]

/-- The failures of json.Decoder.Decode that the switch in ReadJSON
distinguishes: json.SyntaxError with its byte offset, io.ErrUnexpectedEOF,
json.UnmarshalTypeError with field name and offset, io.EOF (which Decode
returns exactly when it consumed no byte), the unknown-field error with the
field name, http.MaxBytesError with its limit, json.InvalidUnmarshalError
for a non-pointer destination, and any other error (fresh value, modelled
with an id like GoErr.fresh). -/
inductive JsonDecodeErr where
  | syntaxErr (offset : Nat)
  | unexpectedEOF
  | typeErr (field : String) (offset : Nat)
  | eof
  | unknownField (name : String)
  | maxBytes (limit : Nat)
  | invalidTarget
  | other (msg : String) (id : Nat)
  deriving DecidableEq

/-- What a call of ReadJSON does: return nil, return one of the taxonomy
errors (each freshly created at the return site), pass an unrecognised error
through, or panic on json.InvalidUnmarshalError. -/
inductive ReadJsonOutcome where
  | ok
  | malformedAt (offset : Nat)
  | malformed
  | wrongTypeField (field : String)
  | wrongTypeAt (offset : Nat)
  | emptyBody
  | unknownKey (name : String)
  | tooLarge (limit : Nat)
  | panicked
  | passthrough (msg : String) (id : Nat)
  | multipleValues
  deriving DecidableEq

/-- The error-mapping switch of ReadJSON (client.go), case for case in source
order: syntax error, unexpected end of input, type mismatch (field name when
known, else offset), clean end of input, unknown field, body size limit,
non-pointer destination (panic), default passthrough. -/
def mapDecodeErr : JsonDecodeErr → ReadJsonOutcome
  | .syntaxErr off => .malformedAt off
  | .unexpectedEOF => .malformed
  | .typeErr f off => if f ≠ "" then .wrongTypeField f else .wrongTypeAt off
  | .eof => .emptyBody
  | .unknownField n => .unknownKey n
  | .maxBytes l => .tooLarge l
  | .invalidTarget => .panicked
  | .other m i => .passthrough m i

/-- The outcome of one json.Decoder.Decode call, abstracted. -/
inductive DecodeTry where
  | succeeds
  | fails (e : JsonDecodeErr)
  deriving DecidableEq

/-- ReadJSON of client.go over the outcomes of its two Decode calls: the
first decodes the destination value; the second decodes into an empty struct
and must report io.EOF, anything else (including success) means the stream
held more than one JSON value. -/
def ReadJSONOutcomes (first second : DecodeTry) : ReadJsonOutcome :=
  match first with
  | .fails e => mapDecodeErr e
  | .succeeds =>
    match second with
    | .fails .eof => .ok
    | _ => .multipleValues

/-- Tokens of the JSON sublanguage the concrete decoder model covers
(objects with string keys and string values), tagged with byte offsets. -/
inductive JTok where
  | lbrace
  | rbrace
  | colon
  | comma
  | strLit (s : String)
  deriving DecidableEq

/-- Scan the characters of a string literal after the opening quote up to
the closing quote; none when the input ends inside the literal. -/
def strChunk : List Char → List Char → Option (String × List Char)
  | [], _ => none
  | c :: rest, acc =>
    if c = Char.ofNat 34 then some (String.mk acc.reverse, rest)
    else strChunk rest (c :: acc)

/-- JSON scanner whitespace. -/
def isWs (c : Char) : Bool :=
  c == Char.ofNat 32 || c == Char.ofNat 9 || c == Char.ofNat 10 || c == Char.ofNat 13

/-- Tokenize the input: the tokens up to the first scan failure, plus that
failure if any.  A character outside the sublanguage is a syntax error at its
offset; end of input inside a string literal is io.ErrUnexpectedEOF.  The
fuel argument only bounds recursion; every call site passes more fuel than
there are characters. -/
def tokenize : Nat → List Char → Nat → List (JTok × Nat) × Option JsonDecodeErr
  | 0, _, _ => ([], some .unexpectedEOF)
  | _, [], _ => ([], none)
  | fuel + 1, c :: rest, pos =>
    if isWs c then tokenize fuel rest (pos + 1)
    else if c == Char.ofNat 123 then
      let r := tokenize fuel rest (pos + 1)
      ((JTok.lbrace, pos) :: r.1, r.2)
    else if c == Char.ofNat 125 then
      let r := tokenize fuel rest (pos + 1)
      ((JTok.rbrace, pos) :: r.1, r.2)
    else if c == Char.ofNat 58 then
      let r := tokenize fuel rest (pos + 1)
      ((JTok.colon, pos) :: r.1, r.2)
    else if c == Char.ofNat 44 then
      let r := tokenize fuel rest (pos + 1)
      ((JTok.comma, pos) :: r.1, r.2)
    else if c == Char.ofNat 34 then
      match strChunk rest [] with
      | none => ([], some .unexpectedEOF)
      | some (s, rest2) =>
        let r := tokenize fuel rest2 (pos + s.length + 2)
        ((JTok.strLit s, pos) :: r.1, r.2)
    else ([], some (.syntaxErr (pos + 1)))

/-- Tokenize a whole string with enough fuel. -/
def tokenizeAll (input : String) : List (JTok × Nat) × Option JsonDecodeErr :=
  tokenize (input.data.length + 1) input.data 0

/-- Parse the members of an object after the opening brace, strict about
unknown fields (DisallowUnknownFields): a key not in known fails before its
value is examined.  pend is the scan failure waiting at the end of the token
stream, reported when the parse runs off the end; with no pending failure,
running out of tokens inside the object is io.ErrUnexpectedEOF. -/
def parseMembers (known : List String) (pend : Option JsonDecodeErr) :
    Nat → List (JTok × Nat) → Except JsonDecodeErr (List (JTok × Nat))
  | 0, _ => .error .unexpectedEOF
  | _ + 1, (.rbrace, _) :: rest => .ok rest
  | fuel + 1, (.strLit k, _) :: rest =>
    if known.contains k then
      match rest with
      | (.colon, _) :: (.strLit _, _) :: (.comma, _) :: (.strLit k2, o2) :: rest3 =>
        parseMembers known pend fuel ((JTok.strLit k2, o2) :: rest3)
      | (.colon, _) :: (.strLit _, _) :: (.comma, _) :: [] =>
        .error (pend.getD .unexpectedEOF)
      | (.colon, _) :: (.strLit _, _) :: (.comma, _) :: (_, off) :: _ =>
        .error (.syntaxErr off)
      | (.colon, _) :: (.strLit _, _) :: (.rbrace, _) :: rest3 => .ok rest3
      | (.colon, _) :: (.strLit _, _) :: [] => .error (pend.getD .unexpectedEOF)
      | (.colon, _) :: (.strLit _, _) :: (_, off) :: _ => .error (.syntaxErr off)
      | (.colon, _) :: [] => .error (pend.getD .unexpectedEOF)
      | (.colon, _) :: (_, off) :: _ => .error (.syntaxErr off)
      | [] => .error (pend.getD .unexpectedEOF)
      | (_, off) :: _ => .error (.syntaxErr off)
    else .error (.unknownField k)
  | _ + 1, [] => .error (pend.getD .unexpectedEOF)
  | _ + 1, (_, off) :: _ => .error (.syntaxErr off)

/-- One json.Decoder.Decode step on the token stream: io.EOF when there is
no token at all (nothing consumed), otherwise one object is decoded strictly
against the known field names; returns the unconsumed rest of the stream.
The member parser gets more fuel than there are tokens, so its fuel never
runs out. -/
def decodeTokens (known : List String) (pend : Option JsonDecodeErr) :
    List (JTok × Nat) → Except JsonDecodeErr (List (JTok × Nat))
  | [] => .error (pend.getD .eof)
  | (.lbrace, _) :: rest => parseMembers known pend (rest.length + 1) rest
  | (_, off) :: _ => .error (.syntaxErr off)

/-- ReadJSON of client.go run on a concrete input string.  known lists the
JSON field names of the destination struct.  The underlying decoder models
the Go standard library json.Decoder with DisallowUnknownFields on the
sublanguage of objects with string keys and string values, which covers the
inputs the spec fixes.  The second Decode goes into an empty struct, so it
knows no fields. -/
def ReadJSONStr (known : List String) (input : String) : ReadJsonOutcome :=
  let scanned := tokenizeAll input
  match decodeTokens known scanned.2 scanned.1 with
  | .error e => mapDecodeErr e
  | .ok rest =>
    match decodeTokens [] scanned.2 rest with
    | .error .eof => ReadJsonOutcome.ok
    | _ => ReadJsonOutcome.multipleValues

/-- The Go error value ReadJSON returns for each outcome.  Every taxonomy
error is a fresh errors.New or fmt.Errorf allocation at the return site
(callId models the allocation); none of them wraps a package sentinel.
The panic outcome returns no error value at all. -/
def readJsonErrValue (callId : Nat) : ReadJsonOutcome → Option GoErr
  | .ok => none
  | .malformedAt off =>
    some (.fresh ("body contains badly-formed JSON (at character " ++
      toString off ++ ")") callId)
  | .malformed => some (.fresh "body contains badly-formed JSON" callId)
  | .wrongTypeField f =>
    some (.fresh ("body contains incorrect JSON type for field " ++ f) callId)
  | .wrongTypeAt off =>
    some (.fresh ("body contains incorrect JSON type (at character " ++
      toString off ++ ")") callId)
  | .emptyBody => some (.fresh "body must not be empty" callId)
  | .unknownKey n => some (.fresh ("body contains unknown key " ++ n) callId)
  | .tooLarge l =>
    some (.fresh ("body must not be larger than " ++ toString l ++ " bytes") callId)
  | .panicked => none
  | .passthrough m i => some (.fresh m i)
  | .multipleValues => some (.fresh "body must only contain a single JSON value" callId)

/-- The package-level sentinel errors of the client.go var block. -/
def rokuSentinels : List GoErr :=
  [ErrTimeOut, ErrMarshallValue, ErrBadRequest, ErrNonPointerOrWrongCasting,
   ErrEmptyItem, ErrNilValue, ErrTimerNotSet]

/-- The dynamic classification of the interface value in an rxgo.Item as the
type switch in To sees it, relative to the expected pointer type: a pointer
of exactly that type (with its address standing for identity), the nil
interface value, a non-nil value whose dynamic type implements error (and is
not the expected pointer type), or any other non-nil value, including
non-pointers and pointers of a different type. -/
inductive ItemValue where
  | ptrOfT (addr : Nat)
  | vnil
  | verr (e : GoErr)
  | otherVal
  deriving DecidableEq

/-- An rxgo.Item: the value V and the error E. -/
structure RxItem where
  V : ItemValue
  E : Option GoErr
  deriving DecidableEq

/-- To from client.go: the type switch over item.V, in source order. -/
def To (item : RxItem) : Option Nat × Option GoErr :=
  match item.V with
  | .ptrOfT addr => (some addr, none)
  | .vnil =>
    match item.E with
    | some e => (none, some e)
    | none => (none, some ErrEmptyItem)
  | .verr e => (none, some e)
  | .otherVal => (none, some ErrNonPointerOrWrongCasting)

/-- ErrProps from client.go. -/
structure ErrProps where
  statusCode : Nat
  status : String
  errMessage : String
  deriving DecidableEq

/-- json.Marshal of an ErrProps value: total (marshalling an int and two
strings cannot fail), rendered with the fields embedded verbatim. -/
def marshalErrProps (p : ErrProps) : String :=
  "\x7b\"status_code\":" ++ toString p.statusCode ++ ",\"status\":\"" ++
    p.status ++ "\",\"error_message\":\"" ++ p.errMessage ++ "\"\x7d"

/-- An ErrInvalidHttpStatus value: it captures the raw failed response. -/
structure ErrInvalidHttpStatusM where
  res : HttpRes
  deriving DecidableEq

/-- The Error method of ErrInvalidHttpStatus (client.go): io.ReadAll the
captured body at call time, then marshal the ErrProps built from status
code, status text and the bytes read; a read failure yields the empty
string.  Returns the description together with the value after the call,
since the read mutates the captured body stream. -/
def errorCall (e : ErrInvalidHttpStatusM) : String × ErrInvalidHttpStatusM :=
  match readAll e.res.body with
  | (.error _, b2) => ("", ⟨{ e.res with body := b2 }⟩)
  | (.ok msg, b2) =>
    (marshalErrProps ⟨e.res.statusCode, e.res.status, msg⟩,
     ⟨{ e.res with body := b2 }⟩)

/-- readBody from client.go.  The deferred closure closes the stream on
every exit path and assigns the Close result to the named return err,
overwriting whatever err the function body returned.  timer nil would take
the ErrTimerNotSet branch (also masked by the deferred assignment). -/
def readBody (timer : Option Unit) (rc : BodyStream) :
    (Option String × Option GoErr) × BodyStream :=
  match timer with
  | none => ((none, rc.closeErr), { rc with closeCount := rc.closeCount + 1 })
  | some _ =>
    match rc.readErr with
    | some _ => ((none, rc.closeErr), { rc with closeCount := rc.closeCount + 1 })
    | none =>
      ((some rc.remaining, rc.closeErr),
       { rc with remaining := "", closeCount := rc.closeCount + 1 })

/-- The external inputs that determine one run of Fetch: the request value
as the serialiser sees it, the transport inputs, and the outcomes of the two
Decode calls ReadJSON makes on the data readBody returned. -/
structure FetchInput where
  req : Option MarshalOutcome
  doInp : DoInput
  firstDecode : DecodeTry
  secondDecode : DecodeTry
  deriving DecidableEq

/-- Which stage of Fetch an error came from. -/
inductive FetchErr where
  | fromPrepare (e : GoErr)
  | fromCall (e : DoErr)
  | fromRead (e : GoErr)
  | fromDecode (o : ReadJsonOutcome)
  deriving DecidableEq

/-- What Fetch returns: an envelope (bodyPresent is false exactly on the
no-content path, where the Body pointer is nil) or an error.  nilDeref marks
the execution that would dereference a nil response after a nil error, which
the transport contract rules out. -/
inductive FetchResult where
  | envOk (bodyPresent : Bool) (res : HttpRes)
  | envErr (e : FetchErr)
  | nilDeref
  deriving DecidableEq

/-- Fetch from client.go, end to end, with the response body stream tracked
so resource facts can be stated.  The second component is the final state of
the response body stream, none when client.Do never produced a response. -/
def fetchRun (inp : FetchInput) (validator : HttpRes → Bool) (url : String) :
    FetchResult × Option BodyStream :=
  match fetchPrepare inp.req with
  | .earlyErr e => (.envErr (.fromPrepare e), none)
  | .call _ =>
    let r := doCall inp.doInp validator url
    match r.2.2 with
    | some de =>
      (.envErr (.fromCall de),
       match de with
       | .invalidStatus res => some res.body
       | .plain _ => none)
    | none =>
      match r.1 with
      | none => (.nilDeref, none)
      | some res =>
        if res.statusCode ≠ 204 then
          match readBody r.2.1 res.body with
          | ((_, some e), b2) => (.envErr (.fromRead e), some b2)
          | ((_, none), b2) =>
            match ReadJSONOutcomes inp.firstDecode inp.secondDecode with
            | .ok => (.envOk true { res with body := b2 }, some b2)
            | o => (.envErr (.fromDecode o), some b2)
        else (.envOk false res, some res.body)

/-- The response client.Do produced in a run of Fetch, if any. -/
def responseOf (inp : FetchInput) : Option HttpRes :=
  match fetchPrepare inp.req with
  | .earlyErr _ => none
  | .call _ =>
    match inp.doInp.newReqErr with
    | some _ => none
    | none =>
      match inp.doInp.outcome with
      | .success res => some res
      | .failure _ => none

/-- The timer argument at the readBody call site inside Fetch: none when the
call site is not reached, some t when readBody is invoked with timer t. -/
def readBodyTimerArg (inp : FetchInput) (validator : HttpRes → Bool)
    (url : String) : Option (Option Unit) :=
  match fetchPrepare inp.req with
  | .earlyErr _ => none
  | .call _ =>
    let r := doCall inp.doInp validator url
    match r.2.2 with
    | some _ => none
    | none =>
      match r.1 with
      | none => none
      | some res => if res.statusCode ≠ 204 then some r.2.1 else none

/-- Whether a run of Fetch reaches the readBody call. -/
def reachesReadBody (inp : FetchInput) (validator : HttpRes → Bool)
    (url : String) : Bool :=
  (readBodyTimerArg inp validator url).isSome

/-- The close count of the response body stream when Fetch returns, none
when no response ever existed. -/
def fetchFinalCloseCount (inp : FetchInput) (validator : HttpRes → Bool)
    (url : String) : Option Nat :=
  ((fetchRun inp validator url).2).map BodyStream.closeCount

/-- An error freshly created at a ReadJSON return site never equals a
package sentinel, so errors.Is cannot match it by kind. -/
theorem errIs_fresh_sentinel (m : String) (i : Nat) (n : String) :
    errIs (.fresh m i) (.sentinel n) = false := rfl

/-- Claim C1: the default status validator reports a response invalid for
every status code in [400,599] and valid for every code in [200,399]; on an
invalid response, do returns the invalid-http-status error wrapping that
exact response. -/
theorem defaultValidator_classifies_status :
    (∀ res : HttpRes, 400 ≤ res.statusCode → res.statusCode ≤ 599 →
      DefaultInvalidStatusCodeValidator res = true) ∧
    (∀ res : HttpRes, 200 ≤ res.statusCode → res.statusCode ≤ 399 →
      DefaultInvalidStatusCodeValidator res = false) ∧
    (∀ (inp : DoInput) (res : HttpRes) (url : String),
      inp.newReqErr = none → inp.outcome = .success res →
      DefaultInvalidStatusCodeValidator res = true →
      doCall inp DefaultInvalidStatusCodeValidator url =
        (none, some (), some (.invalidStatus res))) := by
  refine ⟨?_, ?_, ?_⟩
  · intro res h1 h2
    simp only [DefaultInvalidStatusCodeValidator, Bool.or_eq_true, beq_iff_eq]
    omega
  · intro res h1 h2
    simp only [DefaultInvalidStatusCodeValidator, Bool.or_eq_false_iff,
      beq_eq_false_iff_ne, ne_eq]
    omega
  · intro inp res url h1 h2 h3
    rcases inp with ⟨nre, outc⟩
    simp only at h1 h2
    subst h1; subst h2
    simp [doCall, h3]

/-- Witness for the C1 theorem at status codes 404, 302 and 500. -/
theorem defaultValidator_classifies_status_witness :
    DefaultInvalidStatusCodeValidator ⟨404, "404", mkStream ""⟩ = true ∧
    DefaultInvalidStatusCodeValidator ⟨302, "302", mkStream ""⟩ = false ∧
    doCall ⟨none, .success ⟨500, "500", mkStream "oops"⟩⟩
        DefaultInvalidStatusCodeValidator "u" =
      (none, some (), some (.invalidStatus ⟨500, "500", mkStream "oops"⟩)) :=
  ⟨defaultValidator_classifies_status.1 ⟨404, "404", mkStream ""⟩
      (by decide) (by decide),
   defaultValidator_classifies_status.2.1 ⟨302, "302", mkStream ""⟩
      (by decide) (by decide),
   defaultValidator_classifies_status.2.2
      ⟨none, .success ⟨500, "500", mkStream "oops"⟩⟩
      ⟨500, "500", mkStream "oops"⟩ "u" rfl rfl (by decide)⟩

/-- Claim C2: the FetchRx producer emits exactly one item carrying the
envelope when Fetch succeeds; when Fetch fails it emits the error item and
then additionally emits a second item built from the zero-valued nil
result. -/
theorem fetchRx_emission_shape :
    (∀ (α ε : Type) (env : α),
      fetchRxProducer (some env) (none : Option ε) = [RxEmit.ofVal (some env)]) ∧
    (∀ (α ε : Type) (e : ε),
      fetchRxProducer (none : Option α) (some e) =
        [RxEmit.errItem e, RxEmit.ofVal none]) :=
  ⟨fun _ _ _ => rfl, fun _ _ _ => rfl⟩

/-- Claim C3: ReadJSON maps the strict-decode failures in the stated
precedence order (syntax error to malformed with offset, unexpected end of
input to malformed, type mismatch to wrong type with field name when known
else offset, clean end of input to empty body, unknown field to unknown key
with the name, size limit to too large with the limit, non-pointer
destination to a panic), and on the fixed inputs: a truncated object is
malformed JSON, an undeclared field is an unknown key, two concatenated
top-level values are multiple values, and an empty body is an empty body. -/
theorem readJSON_strict_decode :
    (∀ off, mapDecodeErr (.syntaxErr off) = .malformedAt off) ∧
    mapDecodeErr .unexpectedEOF = .malformed ∧
    (∀ f off, mapDecodeErr (.typeErr f off) =
      if f ≠ "" then .wrongTypeField f else .wrongTypeAt off) ∧
    mapDecodeErr .eof = .emptyBody ∧
    (∀ n, mapDecodeErr (.unknownField n) = .unknownKey n) ∧
    (∀ l, mapDecodeErr (.maxBytes l) = .tooLarge l) ∧
    mapDecodeErr .invalidTarget = .panicked ∧
    ReadJSONStr ["name", "email"] "\x7b\"name\": \"Marco\"" = .malformed ∧
    ReadJSONStr ["name", "email"] "\x7b\"nickname\": \"x\"\x7d" =
      .unknownKey "nickname" ∧
    ReadJSONStr ["name", "email"] "\x7b\x7d \x7b\x7d" = .multipleValues ∧
    ReadJSONStr ["name", "email"] "" = .emptyBody := by
  refine ⟨fun _ => rfl, rfl, fun _ _ => rfl, rfl, fun _ => rfl, fun _ => rfl,
    rfl, ?_, ?_, ?_, ?_⟩ <;> decide

/-- Claim C4: the extraction rules of To, in source order: a pointer of the
expected type is returned itself with no error; a nil value returns the
item error when present, else the empty-item error; an error value is
returned as the error; anything else is the wrong-cast-type error. -/
theorem to_extraction_rules :
    (∀ (addr : Nat) (err : Option GoErr),
      To ⟨.ptrOfT addr, err⟩ = (some addr, none)) ∧
    (∀ e, To ⟨.vnil, some e⟩ = (none, some e)) ∧
    To ⟨.vnil, none⟩ = (none, some ErrEmptyItem) ∧
    (∀ e err, To ⟨.verr e, err⟩ = (none, some e)) ∧
    (∀ err, To ⟨.otherVal, err⟩ = (none, some ErrNonPointerOrWrongCasting)) :=
  ⟨fun _ _ => rfl, fun _ => rfl, rfl, fun _ _ => rfl, fun _ => rfl⟩

/-- Counterexample to claim C5: with a nil request pointer, Fetch does not
return the nil-value error; the errors.Is guard filters ErrNilValue out and
the call proceeds to the HTTP call with a nil body reader, as the complete
successful no-content run shows. -/
theorem fetch_nilRequest_counterexample :
    fetchPrepare none = FetchStep.call none ∧
    fetchPrepare none ≠ FetchStep.earlyErr ErrNilValue ∧
    fetchRun ⟨none, ⟨none, .success ⟨204, "204 No Content", mkStream ""⟩⟩,
        .succeeds, .succeeds⟩ DefaultInvalidStatusCodeValidator "u" =
      (.envOk false ⟨204, "204 No Content", mkStream ""⟩,
       some (mkStream "")) := by
  refine ⟨rfl, by decide, by decide⟩

/-- Claim C5 as amended: for a Fetch call whose request pointer is nil, the
nil-value error from serialisation is suppressed and Fetch issues the HTTP
call with no request body, the same as the absent-body case; only a marshal
failure aborts the call before the HTTP request. -/
theorem fetch_nilRequest_proceeds :
    fetchPrepare none = FetchStep.call none ∧
    (∀ m, fetchPrepare (some (.ok m)) = .call (some m)) ∧
    (∀ m, fetchPrepare (some (.fails m)) =
      .earlyErr (.wrapped m ErrMarshallValue)) :=
  ⟨rfl, fun _ => rfl, fun _ => rfl⟩

/-- Counterexample to claim C6: Fetch with method GET and a non-nil request
value sends the serialised body on the outbound request; the method does not
strip it. -/
theorem fetch_get_body_counterexample :
    fetchOutbound .get (some (.ok "rb")) = some ⟨.get, some "rb"⟩ ∧
    (fetchOutbound .get (some (.ok "rb"))).map OutboundRequest.reqBody ≠
      some none := by
  exact ⟨rfl, by decide⟩

/-- Claim C6 as amended: the outbound body is determined by the request
value alone and is independent of the method; every method, GET and DELETE
included, carries the serialised body whenever a non-nil request value is
supplied. -/
theorem fetch_body_method_independent :
    (∀ (m m2 : HttpMethod) (req : Option MarshalOutcome),
      (fetchOutbound m req).map OutboundRequest.reqBody =
        (fetchOutbound m2 req).map OutboundRequest.reqBody) ∧
    (∀ (m : HttpMethod) (bs : String),
      fetchOutbound m (some (.ok bs)) = some ⟨m, some bs⟩) := by
  constructor
  · intro m m2 req
    cases req with
    | none => rfl
    | some mo => cases mo <;> rfl
  · intro m bs; rfl

/-- Counterexample to claim C7: on a 204 No Content response Fetch returns
without reading or closing the response body stream, so the close count on
exit is 0, not the exactly-once the claim demands on every exit path. -/
theorem fetch_close_204_counterexample :
    fetchFinalCloseCount
        ⟨some (.ok "x"), ⟨none, .success ⟨204, "nc", mkStream "b"⟩⟩,
         .succeeds, .succeeds⟩ DefaultInvalidStatusCodeValidator "u" =
      some 0 ∧
    (some 0 : Option Nat) ≠ some 1 := by
  exact ⟨by decide, by decide⟩

/-- Claim C7 as amended: the response body stream is closed exactly once on
the paths that read it (a successful call whose status is not 204, whatever
the read or decode outcome) and is not closed at all on the no-content path
and the invalid-status path; it is never closed more than once. -/
theorem fetch_close_accounting :
    ∀ (inp : FetchInput) (v : HttpRes → Bool) (u : String),
      fetchFinalCloseCount inp v u =
        (responseOf inp).map
          (fun res => res.body.closeCount +
            (if reachesReadBody inp v u then 1 else 0)) := by
  intro inp v u
  rcases inp with ⟨req, ⟨nre, outc⟩, fd, sd⟩
  simp only [fetchFinalCloseCount, fetchRun, responseOf, reachesReadBody,
    readBodyTimerArg, doCall]
  cases hp : fetchPrepare req with
  | earlyErr e => simp
  | call b =>
    cases nre with
    | some e2 => simp
    | none =>
      cases outc with
      | failure e3 =>
        cases he : errIs e3 ctxCanceled <;> simp [he]
      | success res =>
        cases hv : v res with
        | true => simp [hv]
        | false =>
          by_cases hs : res.statusCode = 204
          · simp [hv, hs]
          · cases hr : res.body.readErr with
            | some e4 =>
              cases hc : res.body.closeErr with
              | some ce => simp [hv, hs, readBody, hr, hc]
              | none =>
                cases ho : ReadJSONOutcomes fd sd <;>
                  simp [hv, hs, readBody, hr, hc, ho]
            | none =>
              cases hc : res.body.closeErr with
              | some ce => simp [hv, hs, readBody, hr, hc]
              | none =>
                cases ho : ReadJSONOutcomes fd sd <;>
                  simp [hv, hs, readBody, hr, hc, ho]

/-- Counterexample to claim C8: the empty-body error ReadJSON returns is a
fresh errors.New value, wraps no sentinel, matches no package sentinel by
kind, and the empty-body errors of two separate calls do not match each
other by kind either, so the strict-decode errors have no stable identity. -/
theorem strictDecode_no_sentinel_counterexample :
    readJsonErrValue 0 (ReadJSONStr ["name", "email"] "") =
      some (.fresh "body must not be empty" 0) ∧
    rokuSentinels.all
      (fun s => !(errIs (.fresh "body must not be empty" 0) s)) = true ∧
    errIs (.fresh "body must not be empty" 0)
      (.fresh "body must not be empty" 1) = false := by
  refine ⟨by decide, by decide, by decide⟩

/-- Claim C8 as amended: the seven package var-block errors are sentinels
with stable identities, and matching by kind with errors.Is still succeeds
after fmt.Errorf wrapping; the strict-decode errors of ReadJSON, by
contrast, are freshly created per call, wrap no sentinel and match no
sentinel by kind — only the var-block part of the taxonomy supports
matching by kind. -/
theorem sentinel_kind_matching :
    (∀ c, errIs (.wrapped c ErrTimeOut) ErrTimeOut = true) ∧
    (∀ c, errIs (.wrapped c ErrMarshallValue) ErrMarshallValue = true) ∧
    (∀ cid o, (readJsonErrValue cid o).all
      (fun e => rokuSentinels.all (fun s => !(errIs e s))) = true) ∧
    (∀ m a b, errIs (.fresh m a) (.fresh m b) = decide (a = b)) := by
  refine ⟨?_, ?_, ?_, ?_⟩
  · intro c; simp [errIs, ErrTimeOut]
  · intro c; simp [errIs, ErrMarshallValue]
  · intro cid o
    cases o <;>
      simp [readJsonErrValue, rokuSentinels, Option.all, ErrTimeOut,
        ErrMarshallValue, ErrBadRequest, ErrNonPointerOrWrongCasting,
        ErrEmptyItem, ErrNilValue, ErrTimerNotSet, errIs_fresh_sentinel]
  · intro m a b
    by_cases h : a = b
    · subst h; simp [errIs]
    · simp [errIs, h]

/-- Claim C9: the invalid-status error captures the response with its body
unread; the first request of the description consumes the body exactly once
and embeds status code, status text and the body text; a second request is
safe, yields the description with an empty message, and subsequent reads of
the body return empty. -/
theorem invalidStatus_lazy_description :
    (∀ (res : HttpRes) (v : HttpRes → Bool) (u : String),
      doCall ⟨none, .success res⟩ v u =
        if v res then (none, some (), some (.invalidStatus res))
        else (some res, some (), none)) ∧
    (∀ (sc : Nat) (st content : String),
      (errorCall ⟨⟨sc, st, mkStream content⟩⟩).1 =
        marshalErrProps ⟨sc, st, content⟩ ∧
      (errorCall ⟨⟨sc, st, mkStream content⟩⟩).2.res.body.remaining = "" ∧
      (errorCall (errorCall ⟨⟨sc, st, mkStream content⟩⟩).2).1 =
        marshalErrProps ⟨sc, st, ""⟩ ∧
      (readAll (errorCall ⟨⟨sc, st, mkStream content⟩⟩).2.res.body).1 =
        .ok "") := by
  constructor
  · intro res v u
    cases hv : v res <;> simp [doCall, hv]
  · intro sc st content
    exact ⟨rfl, rfl, rfl, rfl⟩

/-- Claim C10: a nil error from do comes with a non-nil response and a
non-nil deadline timer; consequently Fetch never invokes readBody with a
nil timer (the ErrTimerNotSet branch is unreachable) and never dereferences
a nil response. -/
theorem doCall_success_nonNil :
    (∀ (inp : DoInput) (v : HttpRes → Bool) (u : String),
      (doCall inp v u).2.2 = none →
      (doCall inp v u).1.isSome = true ∧ (doCall inp v u).2.1.isSome = true) ∧
    (∀ (inp : FetchInput) (v : HttpRes → Bool) (u : String),
      readBodyTimerArg inp v u ≠ some none) ∧
    (∀ (inp : FetchInput) (v : HttpRes → Bool) (u : String),
      (fetchRun inp v u).1 ≠ FetchResult.nilDeref) := by
  refine ⟨?_, ?_, ?_⟩
  · intro inp v u h
    rcases inp with ⟨nre, outc⟩
    cases nre with
    | some e => simp [doCall] at h
    | none =>
      cases outc with
      | success res =>
        cases hv : v res <;> simp [doCall, hv] at h ⊢
      | failure e =>
        cases he : errIs e ctxCanceled <;> simp [doCall, he] at h
  · intro inp v u
    rcases inp with ⟨req, ⟨nre, outc⟩, fd, sd⟩
    simp only [readBodyTimerArg, doCall]
    cases hp : fetchPrepare req with
    | earlyErr e => simp
    | call b =>
      cases nre with
      | some e2 => simp
      | none =>
        cases outc with
        | failure e3 => cases he : errIs e3 ctxCanceled <;> simp [he]
        | success res =>
          cases hv : v res with
          | true => simp [hv]
          | false =>
            by_cases hs : res.statusCode = 204 <;> simp [hv, hs]
  · intro inp v u
    rcases inp with ⟨req, ⟨nre, outc⟩, fd, sd⟩
    simp only [fetchRun, doCall]
    cases hp : fetchPrepare req with
    | earlyErr e => simp
    | call b =>
      cases nre with
      | some e2 => simp
      | none =>
        cases outc with
        | failure e3 => cases he : errIs e3 ctxCanceled <;> simp [he]
        | success res =>
          cases hv : v res with
          | true => simp [hv]
          | false =>
            by_cases hs : res.statusCode = 204
            · simp [hv, hs]
            · cases hr : res.body.readErr with
              | some e4 =>
                cases hc : res.body.closeErr with
                | some ce => simp [hv, hs, readBody, hr, hc]
                | none =>
                  cases ho : ReadJSONOutcomes fd sd <;>
                    simp [hv, hs, readBody, hr, hc, ho]
              | none =>
                cases hc : res.body.closeErr with
                | some ce => simp [hv, hs, readBody, hr, hc]
                | none =>
                  cases ho : ReadJSONOutcomes fd sd <;>
                    simp [hv, hs, readBody, hr, hc, ho]

/-- Witness for the C10 theorem: a successful call with a permissive
validator returns a nil error together with a present response and a
present timer. -/
theorem doCall_success_nonNil_witness :
    (doCall ⟨none, .success ⟨200, "200 OK", mkStream "\x7b\x7d"⟩⟩
        (fun _ => false) "u").2.2 = none ∧
    ((doCall ⟨none, .success ⟨200, "200 OK", mkStream "\x7b\x7d"⟩⟩
        (fun _ => false) "u").1.isSome = true ∧
     (doCall ⟨none, .success ⟨200, "200 OK", mkStream "\x7b\x7d"⟩⟩
        (fun _ => false) "u").2.1.isSome = true) :=
  ⟨by decide,
   doCall_success_nonNil.1 ⟨none, .success ⟨200, "200 OK", mkStream "\x7b\x7d"⟩⟩
     (fun _ => false) "u" (by decide)⟩

end Roku
